import Mathlib

/-!
Verification model of the redisTOON core (value model, TOON encoder/decoder,
JSON bridge, path engine, structural operations), shallowly embedded from the
C sources in src/.  C strings are modeled as NUL-free lists of byte values
(Nat, 0..255); the C `double` is modeled as an exact scaled-decimal pair
`mant * 10 ^ exp10`, which is exact for every decimal literal the parsers
produce (floating-point rounding is out of scope).  Buffer capacities that
merely truncate (4096-byte string buffers, 255-byte key buffers, ...) are
modeled by `List.take` at the same bounds; allocation failure is not modeled.
-/

namespace RedisToon

/-- Bytes of C strings (values 0..255).  C strings contain no NUL byte. -/
abbrev Byte := Nat

/-- Byte list of an ASCII Lean string literal (escapes like \n included). -/
def strB (s : String) : List Byte := s.data.map Char.toNat

/-- C isspace on bytes: space, \t, \n, \v, \f, \r. -/
def isspaceB (c : Byte) : Bool := decide (c = 32 ∨ (9 ≤ c ∧ c ≤ 13))

/-- C isdigit on bytes. -/
def isdigitB (c : Byte) : Bool := decide (48 ≤ c ∧ c ≤ 57)

/-- Value of a digit string (most significant first). -/
def natOfDigits (s : List Byte) : Nat := s.foldl (fun a c => a * 10 + (c - 48)) 0

/-- Decimal digits of a Nat, as bytes. -/
def natToDec (n : Nat) : List Byte := (Nat.toDigits 10 n).map Char.toNat

/-- Printf %ld rendering of an integer. -/
def intToDec (i : Int) : List Byte := if i < 0 then 45 :: natToDec i.natAbs else natToDec i.toNat

/-- The TOON value tree (redistoon.h, struct ToonValue).  `number mant exp10`
models the C double with exact value `mant * 10 ^ exp10`; `tabular hs rows`
models ToonTabularArray (headers and row-major cell matrix). -/
inductive ToonValue where
  | null
  | boolean (b : Bool)
  | number (mant : Int) (exp10 : Int)
  | string (s : List Byte)
  | array (elements : List ToonValue)
  | object (entries : List (List Byte × ToonValue))
  | tabular (headers : List (List Byte)) (rows : List (List ToonValue))

instance : Inhabited ToonValue := ⟨ToonValue.null⟩

/-- Exponent part of strtod: `e`/`E`, optional sign, digits; backs off (leaving
the input untouched) when no digit follows, as C strtod does. -/
def parseExp (s : List Byte) : Int × List Byte :=
  match s with
  | c :: r =>
    if c = 101 ∨ c = 69 then
      let sgnE : Int := if r.head? = some 45 then -1 else 1
      let r2 := if r.head? = some 45 ∨ r.head? = some 43 then r.tail else r
      let eds := r2.takeWhile isdigitB
      if eds = [] then (0, s) else (sgnE * (natOfDigits eds : Int), r2.dropWhile isdigitB)
    else (0, s)
  | [] => (0, s)

/-- Endpointer-style decimal parse modeling C strtod on a byte list: skip
leading whitespace, optional sign, digits, optional `.` and fraction digits,
optional exponent.  Returns (mantissa, exp10, unconsumed suffix); when no
conversion is possible the suffix is the whole input.  The hexadecimal,
inf and nan forms of strtod are not modeled (no claim exercises them). -/
def strtodParse (s : List Byte) : Int × Int × List Byte :=
  let s1 := s.dropWhile isspaceB
  let sgn : Int := if s1.head? = some 45 then -1 else 1
  let s2 := if s1.head? = some 45 ∨ s1.head? = some 43 then s1.tail else s1
  let ds := s2.takeWhile isdigitB
  let s3 := s2.dropWhile isdigitB
  let hasDot := s3.head? = some 46
  let s3b := if hasDot then s3.tail else s3
  let fs := if hasDot then s3b.takeWhile isdigitB else []
  let s4 := if hasDot then s3b.dropWhile isdigitB else s3
  if ds = [] ∧ fs = [] then (0, 0, s)
  else
    let ep := parseExp s4
    (sgn * (natOfDigits (ds ++ fs) : Int), ep.1 - (fs.length : Int), ep.2)

/-- C atoi on a byte list: skip whitespace, optional sign, leading digits;
0 when no digits.  (Overflow is undefined in C and not modeled.) -/
def atoiB (s : List Byte) : Int :=
  let s1 := s.dropWhile isspaceB
  let sgn : Int := if s1.head? = some 45 then -1 else 1
  let s2 := if s1.head? = some 45 ∨ s1.head? = some 43 then s1.tail else s1
  sgn * (natOfDigits (s2.takeWhile isdigitB) : Int)

/-- Strip factors of 10 from the mantissa into the exponent (fuel-bounded by
the number of strippable zeros); used to decide the encoder's exact-integer
test `num == (long)num` and its trailing-zero-free rendering. -/
def stripZeros : Int → Int → Nat → Int × Int
  | m, e, 0 => (m, e)
  | m, e, fuel + 1 =>
    if e < 0 ∧ m % 10 = 0 ∧ m ≠ 0 then stripZeros (m / 10) (e + 1) fuel else (m, e)

/-- Canonical mantissa/exponent of a number value (zero is (0, 0)). -/
def normNum (m e : Int) : Int × Int :=
  if m = 0 then (0, 0) else stripZeros m e e.natAbs

/-- Rendering of the C double per encode_value (toon_encoder.c:214-222): an
exact integer prints as %ld, otherwise as a plain decimal expansion (a model
of %.10g adequate for the short decimals arising here; values needing
scientific notation or more than 10 significant digits are not exercised). -/
def encodeNumber (m e : Int) : List Byte :=
  let n := normNum m e
  if 0 ≤ n.2 then intToDec (n.1 * (10 : Int) ^ n.2.toNat)
  else
    let k := n.2.natAbs
    let ds := natToDec n.1.natAbs
    let ds2 := if ds.length ≤ k then List.replicate (k + 1 - ds.length) 48 ++ ds else ds
    (if n.1 < 0 then [45] else []) ++ ds2.take (ds2.length - k) ++ 46 :: ds2.drop (ds2.length - k)

/-- Quoting test for unquoted string emission (toon_encoder.c:5-33,
needs_quoting): empty; keyword; fully strtod-parsable; leading/trailing
whitespace; or any of `, : \n \r { } [ ]` or a byte below 32 or at least 128
(the C code compares a signed char against 32, so bytes 128..255 test true). -/
def needs_quoting (s : List Byte) : Bool :=
  if s = [] then true
  else if s = strB "null" ∨ s = strB "true" ∨ s = strB "false" then true
  else if (strtodParse s).2.2 = [] then true
  else if isspaceB s.headI ∨ isspaceB (s.getLast!) then true
  else s.any fun c =>
    decide (c = 44 ∨ c = 58 ∨ c = 10 ∨ c = 13 ∨ c = 123 ∨ c = 125 ∨ c = 91 ∨ c = 93 ∨
      c < 32 ∨ 128 ≤ c)

/-- TOON escape of one byte (toon_encoder.c escape_string switch). -/
def escapeChar (c : Byte) : List Byte :=
  if c = 34 then [92, 34]
  else if c = 92 then [92, 92]
  else if c = 10 then [92, 110]
  else if c = 13 then [92, 114]
  else if c = 9 then [92, 116]
  else [c]

/-- Quoted-and-escaped rendering of a string (toon_encoder.c escape_string). -/
def escape_string (s : List Byte) : List Byte := 34 :: (s.map escapeChar).flatten ++ [34]

/-- Two spaces per indent level (toon_encoder.c make_indent). -/
def mkIndent (lvl : Nat) : List Byte := List.replicate (lvl * 2) 32

/-- Composite (non-primitive) kinds, as tested by encode_array. -/
def isCompositeType : ToonValue → Bool
  | .array _ => true
  | .object _ => true
  | .tabular _ _ => true
  | _ => false

/-- Comma join of header names (encode_tabular_array header loop). -/
def joinComma (hs : List (List Byte)) : List Byte := List.intercalate [44] hs

mutual

/-- Recursive TOON encoder (toon_encoder.c encode_value). -/
def encode_value : ToonValue → Nat → Bool → List Byte
  | .null, _, _ => strB "null"
  | .boolean b, _, _ => if b then strB "true" else strB "false"
  | .number m e, _, _ => encodeNumber m e
  | .string s, _, _ => if needs_quoting s then escape_string s else s
  | .array es, lvl, _ =>
    if es.all fun e => !isCompositeType e then
      strB "[" ++ natToDec es.length ++ strB "]: " ++ encodeInline es
    else
      strB "[" ++ natToDec es.length ++ strB "]:\n" ++ encodeLines es (lvl + 1)
  | .object en, lvl, inl => encodeEntries en lvl inl true
  | .tabular hs rs, lvl, _ =>
    strB "[" ++ natToDec rs.length ++ strB ",]\x7b" ++ joinComma hs ++ strB "\x7d:\n" ++
      encodeRows rs lvl

/-- Comma-joined inline rendering of elements or tabular cells
(encode_array compact loop; encode_tabular_array cell loop). -/
def encodeInline : List ToonValue → List Byte
  | [] => []
  | [e] => encode_value e 0 true
  | e :: e2 :: rest => encode_value e 0 true ++ 44 :: encodeInline (e2 :: rest)

/-- One `- value` line per element at the given level (encode_array
multi-line loop; the caller passes indent_level + 1). -/
def encodeLines : List ToonValue → Nat → List Byte
  | [], _ => []
  | e :: rest, lvl =>
    mkIndent lvl ++ strB "- " ++ encode_value e lvl false ++ 10 :: encodeLines rest lvl

/-- Object entry lines (encode_object loop): first entry has no indent,
later entries are indented (or comma-separated when inline); each value is
encoded at indent_level + 1; a newline ends each entry unless inline. -/
def encodeEntries : List (List Byte × ToonValue) → Nat → Bool → Bool → List Byte
  | [], _, _, _ => []
  | (k, v) :: rest, lvl, inl, isFirst =>
    (if !inl ∧ !isFirst then mkIndent lvl else if inl ∧ !isFirst then strB ", " else []) ++
      k ++ strB ": " ++ encode_value v (lvl + 1) false ++
      (if inl then [] else [10]) ++ encodeEntries rest lvl inl false

/-- Tabular rows: indent, comma-joined inline cells, newline
(encode_tabular_array row loop). -/
def encodeRows : List (List ToonValue) → Nat → List Byte
  | [], _ => []
  | row :: rest, lvl => mkIndent lvl ++ encodeInline row ++ 10 :: encodeRows rest lvl

end

/-- Public encoder entry point (toon_encoder.c toon_encode). -/
def toon_encode (v : ToonValue) (indent_level : Nat) : List Byte :=
  encode_value v indent_level false

/-!
TOON decoder (toon_decoder.c).  The parser cursor is the unconsumed byte
list plus a latched error flag; the 1-based line/column carried by the C
Parser only feeds the error message text and is elided (claims only observe
success or failure).  `consume` at end of input yields byte 0 without
advancing, as reading the NUL terminator does in C.  The only recursion of
the grammar is parse_value → parse_simple_array → element loop → parse_value,
and each such descent first consumes a `[`, so a fuel of input length + 1
(decremented once per descent) can never be exhausted; all other loops are
bounded by their C counters (declared counts, the 256-entry caps, buffer
sizes) and are modeled by structural recursion on those counters.
-/

/-- Parser cursor (toon_decoder.c struct Parser, minus line/column). -/
structure PState where
  rest : List Byte
  err : Bool

/-- Latch an error (set_error; the message text is elided). -/
def setErr (p : PState) : PState := { p with err := true }

/-- Peek at the current character; NUL at end of input. -/
def peekB (p : PState) : Byte := p.rest.headI

/-- Consume and return the current character; at end of input returns NUL
without advancing. -/
def consumeB (p : PState) : Byte × PState :=
  match p.rest with
  | [] => (0, p)
  | c :: r => (c, { p with rest := r })

/-- Skip whitespace (skip_whitespace). -/
def skip_whitespace (p : PState) : PState := { p with rest := p.rest.dropWhile isspaceB }

/-- Drop trailing C-isspace bytes. -/
def trimTrailing (l : List Byte) : List Byte := (l.reverse.dropWhile isspaceB).reverse

/-- Body loop of parse_quoted_string; the 4096-byte buffer truncates the
collected text at 4095 bytes while still consuming the input.  An unknown
escape latches an error and returns at once. -/
def pqsBody : Nat → PState → List Byte → List Byte × PState
  | 0, p, acc => (acc.take 4095, setErr p)
  | fuel + 1, p, acc =>
    if peekB p = 34 ∨ peekB p = 0 then
      let cq := consumeB p
      if cq.1 = 34 then (acc.take 4095, cq.2) else (acc.take 4095, setErr cq.2)
    else
      let c1 := consumeB p
      if c1.1 = 92 then
        let c2 := consumeB c1.2
        if c2.1 = 110 then pqsBody fuel c2.2 (acc ++ [10])
        else if c2.1 = 114 then pqsBody fuel c2.2 (acc ++ [13])
        else if c2.1 = 116 then pqsBody fuel c2.2 (acc ++ [9])
        else if c2.1 = 34 then pqsBody fuel c2.2 (acc ++ [34])
        else if c2.1 = 92 then pqsBody fuel c2.2 (acc ++ [92])
        else (acc.take 4095, setErr c2.2)
      else pqsBody fuel c1.2 (acc ++ [c1.1])

/-- Quoted string with escapes (parse_quoted_string). -/
def parse_quoted_string (p : PState) : List Byte × PState :=
  let c := consumeB p
  if c.1 = 34 then pqsBody (c.2.rest.length + 1) c.2 [] else ([], setErr c.2)

/-- Unquoted run up to one of the delimiter bytes, truncated at 4095 and
right-trimmed (parse_unquoted_string). -/
def parse_unquoted_string (delims : List Byte) (p : PState) : List Byte × PState :=
  let taken := p.rest.takeWhile fun c => !(delims.contains c)
  (trimTrailing (taken.take 4095), { p with rest := p.rest.drop taken.length })

/-- Number token: optional minus, then a greedy digit/`.` scan bounded by the
64-byte buffer, handed to strtod (parse_number). -/
def parse_number (p : PState) : ToonValue × PState :=
  let hasSign := peekB p = 45
  let p1 := if hasSign then (consumeB p).2 else p
  let cap := if hasSign then 62 else 63
  let taken := (p1.rest.takeWhile fun c => isdigitB c ∨ c = 46).take cap
  let v := strtodParse ((if hasSign then [45] else []) ++ taken)
  (.number v.1 v.2.1, { p1 with rest := p1.rest.drop taken.length })

/-- Inner character loop of one tabular header (reads until `,` or `}`, at
most 255 bytes; at end of input it keeps appending NUL without advancing,
exactly as the C loop does, and those NULs are cut at the strlen below). -/
def tabHeaderChars : Nat → PState → List Byte → List Byte × PState
  | 0, p, acc => (acc, p)
  | j + 1, p, acc =>
    if peekB p = 44 ∨ peekB p = 125 then (acc, p)
    else
      let c := consumeB p
      tabHeaderChars j c.2 (acc ++ [c.1])

/-- Header list loop of parse_tabular_array (at most 256 headers; each name
is whitespace-trimmed; a separating comma is consumed when present). -/
def tabHeaders : Nat → PState → List (List Byte) → List (List Byte) × PState
  | 0, p, acc => (acc, p)
  | n + 1, p, acc =>
    if peekB p = 125 then (acc, p)
    else
      let p1 := skip_whitespace p
      let hc := tabHeaderChars 255 p1 []
      let name := trimTrailing ((hc.1.takeWhile fun c => c ≠ 0).dropWhile isspaceB)
      let p2 := skip_whitespace hc.2
      let p3 := if peekB p2 = 44 then (consumeB p2).2 else p2
      tabHeaders n p3 (acc ++ [name])

/-- One tabular cell (quoted string, number, or unquoted keyword/string
delimited by `,`/newline), per the cell dispatch in parse_tabular_array. -/
def tabCell (p : PState) : ToonValue × PState :=
  if peekB p = 34 then
    let s := parse_quoted_string p
    (.string s.1, s.2)
  else if isdigitB (peekB p) ∨ peekB p = 45 then parse_number p
  else
    let u := parse_unquoted_string (strB ",\n\r") p
    if u.1 = strB "null" then (.null, u.2)
    else if u.1 = strB "true" then (.boolean true, u.2)
    else if u.1 = strB "false" then (.boolean false, u.2)
    else (.string u.1, u.2)

/-- Cell loop of one tabular row; a comma is consumed after every cell but
the last.  The counter is the number of cells still to read. -/
def tabCells : Nat → PState → List ToonValue → List ToonValue × PState
  | 0, p, acc => (acc, p)
  | k + 1, p, acc =>
    let p1 := skip_whitespace p
    let cv := tabCell p1
    let p2 := skip_whitespace cv.2
    let p3 := if k > 0 ∧ peekB p2 = 44 then (consumeB p2).2 else p2
    tabCells k p3 (acc ++ [cv.1])

/-- Row loop of parse_tabular_array: exactly the declared number of rows is
read, trusting the count literally. -/
def tabRows : Nat → Nat → PState → List (List ToonValue) → List (List ToonValue) × PState
  | 0, _, p, acc => (acc, p)
  | r + 1, nh, p, acc =>
    let p1 := skip_whitespace p
    let cs := tabCells nh p1 []
    let p2 := skip_whitespace cs.2
    tabRows r nh p2 (acc ++ [cs.1])

/-- Tabular array `[N,]{h1,h2,...}:` followed by N rows
(parse_tabular_array). -/
def parse_tabular_array (p : PState) : ToonValue × PState :=
  let c0 := consumeB p
  if c0.1 ≠ 91 then (.null, setErr c0.2)
  else
    let taken := (c0.2.rest.takeWhile isdigitB).take 31
    let num_rows := natOfDigits taken
    let p1 : PState := { c0.2 with rest := c0.2.rest.drop taken.length }
    let c1 := consumeB p1
    if c1.1 ≠ 44 then (.null, setErr c1.2)
    else
      let c2 := consumeB c1.2
      if c2.1 ≠ 93 then (.null, setErr c2.2)
      else
        let c3 := consumeB c2.2
        if c3.1 ≠ 123 then (.null, setErr c3.2)
        else
          let hs := tabHeaders 256 c3.2 []
          let c4 := consumeB hs.2
          if c4.1 ≠ 125 then (.null, setErr c4.2)
          else
            let c5 := consumeB c4.2
            if c5.1 ≠ 58 then (.null, setErr c5.2)
            else
              let p2 := skip_whitespace c5.2
              let rs := tabRows num_rows hs.1.length p2 []
              (.tabular hs.1 rs.1, rs.2)

/-- Element loop of parse_simple_array, parameterized by the value parser of
the enclosing fuel level; a comma is consumed after every element but the
last (the declared count is trusted literally). -/
def arrElemsH (pv : PState → ToonValue × PState) :
    Nat → PState → List ToonValue → List ToonValue × PState
  | 0, p, acc => (acc, p)
  | k + 1, p, acc =>
    let p1 := skip_whitespace p
    let ev := pv p1
    let p2 := skip_whitespace ev.2
    let p3 := if k > 0 ∧ peekB p2 = 44 then (consumeB p2).2 else p2
    arrElemsH pv k p3 (acc ++ [ev.1])

/-- Simple array `[N]: v1,v2,...` (parse_simple_array), parameterized by the
value parser used for the elements. -/
def parse_simple_arrayH (pv : PState → ToonValue × PState) (p : PState) : ToonValue × PState :=
  let c0 := consumeB p
  if c0.1 ≠ 91 then (.null, setErr c0.2)
  else
    let taken := (c0.2.rest.takeWhile isdigitB).take 31
    let len := natOfDigits taken
    let p1 : PState := { c0.2 with rest := c0.2.rest.drop taken.length }
    let c1 := consumeB p1
    if c1.1 ≠ 93 then (.null, setErr c1.2)
    else
      let c2 := consumeB c1.2
      if c2.1 ≠ 58 then (.null, setErr c2.2)
      else
        let es := arrElemsH pv len (skip_whitespace c2.2) []
        (.array es.1, es.2)

/-- Value dispatch (parse_value): quoted string, number, array — where a
digit run after `[` followed by `,` selects the tabular form — or an
unquoted keyword/string.  The fuel bounds the nesting depth only. -/
def parse_value : Nat → PState → ToonValue × PState
  | 0, p => (.null, setErr p)
  | fuel + 1, p =>
    let p1 := skip_whitespace p
    let c := peekB p1
    if c = 34 then
      let s := parse_quoted_string p1
      (.string s.1, s.2)
    else if isdigitB c ∨ c = 45 then parse_number p1
    else if c = 91 then
      let la := (p1.rest.drop 1).dropWhile isdigitB
      if la.head? = some 44 then parse_tabular_array p1
      else parse_simple_arrayH (parse_value fuel) p1
    else
      let u := parse_unquoted_string (strB ",\n\r:") p1
      if u.1 = strB "null" then (.null, u.2)
      else if u.1 = strB "true" then (.boolean true, u.2)
      else if u.1 = strB "false" then (.boolean false, u.2)
      else (.string u.1, u.2)

/-- Entry loop of parse_object: up to 256 `key: value` entries; the key is
read up to `:` (255-byte buffer) and whitespace-trimmed; the loop breaks at
end of input or when no `:` follows the key. -/
def parse_object_loop (pv : PState → ToonValue × PState) :
    Nat → PState → List (List Byte × ToonValue) → List (List Byte × ToonValue) × PState
  | 0, p, acc => (acc, p)
  | n + 1, p, acc =>
    if peekB p = 0 then (acc, p)
    else
      let p1 := skip_whitespace p
      if peekB p1 = 0 then (acc, p1)
      else
        let taken := (p1.rest.takeWhile fun c => c ≠ 58).take 255
        let p2 : PState := { p1 with rest := p1.rest.drop taken.length }
        let key := trimTrailing (taken.dropWhile isspaceB)
        if peekB p2 ≠ 58 then (acc, p2)
        else
          let p3 := (consumeB p2).2
          let vv := pv (skip_whitespace p3)
          let p5 := skip_whitespace vv.2
          let p6 := if peekB p5 = 10 then (consumeB p5).2 else p5
          parse_object_loop pv n p6 (acc ++ [(key, vv.1)])

/-- Top-level object parser (parse_object). -/
def parse_object (pv : PState → ToonValue × PState) (p : PState) : ToonValue × PState :=
  let r := parse_object_loop pv 256 p []
  (.object r.1, r.2)

/-- Top-level lookahead of toon_decode: scan the first line for a `:` whose
preceding character is not `]`.  `prev` is the character before the scan
start (a skipped whitespace byte, or — out-of-bounds in C when the input
starts unindented at offset 0 — modeled as NUL; neither equals `]`). -/
def looksLikeObject : Byte → List Byte → Bool
  | _, [] => false
  | prev, c :: rest =>
    if c = 10 then false
    else if c = 58 ∧ prev ≠ 93 then true
    else looksLikeObject c rest

/-- Public decoder entry point (toon_decode): object or single-value
dispatch; on a latched error the partial tree is discarded and `none` is
returned (the C reports position and message through the out-parameter). -/
def toon_decode (input : List Byte) : Option ToonValue :=
  let p := skip_whitespace ⟨input, false⟩
  let fuel := input.length + 1
  let r :=
    if looksLikeObject 0 p.rest then parse_object (parse_value fuel) p
    else parse_value fuel p
  if r.2.err then none else some r.1

/-!
JSON bridge (toon_json.c): toon_to_json renders a Value as JSON text (the
string escapes and the %ld / %.10g number rendering are the same as the
TOON encoder's); json_to_toon is a recursive-descent JSON parser over the
same cursor shape, with the tabular-promotion step at the end of
parse_json_array.
-/

mutual

/-- JSON renderer (toon_to_json). -/
def toon_to_json : ToonValue → List Byte
  | .null => strB "null"
  | .boolean b => if b then strB "true" else strB "false"
  | .number m e => encodeNumber m e
  | .string s => 34 :: (s.map escapeChar).flatten ++ [34]
  | .array es => 91 :: jsonElems es ++ [93]
  | .object en => 123 :: jsonEntries en ++ [125]
  | .tabular hs rs => 91 :: jsonRows hs rs ++ [93]

/-- Comma-joined JSON array elements. -/
def jsonElems : List ToonValue → List Byte
  | [] => []
  | [e] => toon_to_json e
  | e :: e2 :: rest => toon_to_json e ++ 44 :: jsonElems (e2 :: rest)

/-- Comma-joined JSON object members, keys quoted verbatim. -/
def jsonEntries : List (List Byte × ToonValue) → List Byte
  | [] => []
  | [(k, v)] => 34 :: k ++ 34 :: 58 :: toon_to_json v
  | (k, v) :: e2 :: rest => 34 :: k ++ 34 :: 58 :: toon_to_json v ++ 44 :: jsonEntries (e2 :: rest)

/-- One tabular row as a JSON object: the C loop runs over the headers,
pairing header col with cell col (rows always hold exactly one cell per
header by construction). -/
def jsonRowCells : List (List Byte) → List ToonValue → List Byte
  | [], _ => []
  | _ :: _, [] => []
  | [h], c :: _ => 34 :: h ++ 34 :: 58 :: toon_to_json c
  | h :: h2 :: hs, c :: cs => 34 :: h ++ 34 :: 58 :: toon_to_json c ++ 44 :: jsonRowCells (h2 :: hs) cs

/-- A tabular array as a comma-joined list of JSON row objects. -/
def jsonRows : List (List Byte) → List (List ToonValue) → List Byte
  | _, [] => []
  | hs, [r] => 123 :: jsonRowCells hs r ++ [125]
  | hs, r :: r2 :: rest => 123 :: jsonRowCells hs r ++ 125 :: 44 :: jsonRows hs (r2 :: rest)

end

/-- Body loop of parse_json_string: same cursor discipline as the TOON
quoted string, but `\/` and unknown escapes pass the escaped character
through unchanged instead of failing. -/
def jqsBody : Nat → PState → List Byte → List Byte × PState
  | 0, p, acc => (acc.take 4095, setErr p)
  | fuel + 1, p, acc =>
    if peekB p = 34 ∨ peekB p = 0 then
      let cq := consumeB p
      if cq.1 = 34 then (acc.take 4095, cq.2) else (acc.take 4095, setErr cq.2)
    else
      let c1 := consumeB p
      if c1.1 = 92 then
        let c2 := consumeB c1.2
        let c3 :=
          if c2.1 = 110 then 10 else if c2.1 = 114 then 13 else if c2.1 = 116 then 9 else c2.1
        jqsBody fuel c2.2 (acc ++ [c3])
      else jqsBody fuel c1.2 (acc ++ [c1.1])

/-- JSON string literal (parse_json_string). -/
def parse_json_string (p : PState) : List Byte × PState :=
  let c := consumeB p
  if c.1 = 34 then jqsBody (c.2.rest.length + 1) c.2 [] else ([], setErr c.2)

/-- JSON number: optional minus then a greedy digit/`.`/`e`/`E`/`+`/`-` scan
bounded by the 64-byte buffer, handed to strtod (parse_json_number). -/
def parse_json_number (p : PState) : ToonValue × PState :=
  let hasSign := peekB p = 45
  let p1 := if hasSign then (consumeB p).2 else p
  let cap := if hasSign then 62 else 63
  let taken :=
    (p1.rest.takeWhile fun c =>
      isdigitB c ∨ c = 46 ∨ c = 101 ∨ c = 69 ∨ c = 43 ∨ c = 45).take cap
  let v := strtodParse ((if hasSign then [45] else []) ++ taken)
  (.number v.1 v.2.1, { p1 with rest := p1.rest.drop taken.length })

/-- Entry-count test used by the promotion scan (toon_json.c:253-259). -/
def entriesLenEq (n : Nat) : ToonValue → Bool
  | .object l => decide (l.length = n)
  | _ => false

/-- Entry values of an object, in order (used for one promoted row). -/
def objVals : ToonValue → List ToonValue
  | .object l => l.map Prod.snd
  | _ => []

/-- Tabular promotion at the end of parse_json_array (toon_json.c:248-292):
with at least two elements, a first element that is an object, every element
an object with the same entry count as the first, and that count nonzero,
the array becomes a TabularArray: headers are the first object's keys and
each row takes each object's entry values positionally (ownership moves, no
copy).  Otherwise the parsed elements stay a simple Array. -/
def promote (es : List ToonValue) : ToonValue :=
  match es with
  | .object fe :: e2 :: rest =>
    if (e2 :: rest).all (entriesLenEq fe.length) ∧ 0 < fe.length then
      .tabular (fe.map Prod.fst) ((ToonValue.object fe :: e2 :: rest).map objVals)
    else .array es
  | _ => .array es

/-- Element loop of parse_json_array: runs until `]`, end of input, or the
256-element cap; a separating comma is consumed when present. -/
def jsonArrElems (pv : PState → ToonValue × PState) :
    Nat → PState → List ToonValue → List ToonValue × PState
  | 0, p, acc => (acc, p)
  | n + 1, p, acc =>
    if peekB p = 93 ∨ peekB p = 0 then (acc, p)
    else
      let ev := pv p
      let p1 := skip_whitespace ev.2
      let p2 := if peekB p1 = 44 then skip_whitespace (consumeB p1).2 else p1
      jsonArrElems pv n p2 (acc ++ [ev.1])

/-- JSON array (parse_json_array), ending in the promotion step; a missing
closing `]` — including the case where the 256 cap left elements unread —
is an error. -/
def parse_json_arrayH (pv : PState → ToonValue × PState) (p : PState) : ToonValue × PState :=
  let c0 := consumeB p
  if c0.1 ≠ 91 then (.null, setErr c0.2)
  else
    let es := jsonArrElems pv 256 (skip_whitespace c0.2) []
    let cc := consumeB es.2
    if cc.1 ≠ 93 then (.null, setErr cc.2) else (promote es.1, cc.2)

/-- Member loop of parse_json_object: runs until `}`, end of input, or the
256-entry cap; key errors and a missing `:` abort. -/
def jsonObjEntries (pv : PState → ToonValue × PState) :
    Nat → PState → List (List Byte × ToonValue) → List (List Byte × ToonValue) × PState
  | 0, p, acc => (acc, p)
  | n + 1, p, acc =>
    if peekB p = 125 ∨ peekB p = 0 then (acc, p)
    else
      let p1 := skip_whitespace p
      let k := parse_json_string p1
      if k.2.err then (acc, k.2)
      else
        let cc := consumeB (skip_whitespace k.2)
        if cc.1 ≠ 58 then (acc, setErr cc.2)
        else
          let vv := pv (skip_whitespace cc.2)
          let p4 := skip_whitespace vv.2
          let p5 := if peekB p4 = 44 then skip_whitespace (consumeB p4).2 else p4
          jsonObjEntries pv n p5 (acc ++ [(k.1, vv.1)])

/-- JSON object (parse_json_object); a missing closing `}` — including the
case where the 256 cap left members unread — is an error. -/
def parse_json_objectH (pv : PState → ToonValue × PState) (p : PState) : ToonValue × PState :=
  let c0 := consumeB p
  if c0.1 ≠ 123 then (.null, setErr c0.2)
  else
    let en := jsonObjEntries pv 256 (skip_whitespace c0.2) []
    let cc := consumeB en.2
    if cc.1 ≠ 125 then (.null, setErr cc.2) else (.object en.1, cc.2)

/-- JSON value dispatch (parse_json_value); the fuel bounds nesting depth
only, each descent first consuming a `{` or `[`. -/
def parse_json_value : Nat → PState → ToonValue × PState
  | 0, p => (.null, setErr p)
  | fuel + 1, p =>
    let p1 := skip_whitespace p
    let c := peekB p1
    if c = 34 then
      let s := parse_json_string p1
      (.string s.1, s.2)
    else if c = 123 then parse_json_objectH (parse_json_value fuel) p1
    else if c = 91 then parse_json_arrayH (parse_json_value fuel) p1
    else if p1.rest.take 4 = strB "true" then (.boolean true, { p1 with rest := p1.rest.drop 4 })
    else if p1.rest.take 5 = strB "false" then (.boolean false, { p1 with rest := p1.rest.drop 5 })
    else if p1.rest.take 4 = strB "null" then (.null, { p1 with rest := p1.rest.drop 4 })
    else if isdigitB c ∨ c = 45 then parse_json_number p1
    else (.null, setErr p1)

/-- Public JSON-to-TOON entry point (json_to_toon). -/
def json_to_toon (input : List Byte) : Option ToonValue :=
  let r := parse_json_value (input.length + 1) ⟨input, false⟩
  if r.2.err then none else some r.1

/-!
Structural operations (toon_operations.c): deep copy and recursive merge.
On pure trees a deep copy builds a structurally identical tree, which the
model captures verbatim (the C function's work is allocating the second,
independent copy of that same tree).
-/

mutual

/-- Deep copy (toon_value_copy). -/
def toon_value_copy : ToonValue → ToonValue
  | .null => .null
  | .boolean b => .boolean b
  | .number m e => .number m e
  | .string s => .string s
  | .array es => .array (copyElems es)
  | .object en => .object (copyEntries en)
  | .tabular hs rs => .tabular hs (copyRows rs)

/-- Element-wise copy of an array. -/
def copyElems : List ToonValue → List ToonValue
  | [] => []
  | e :: rest => toon_value_copy e :: copyElems rest

/-- Entry-wise copy of an object (keys strdup-ed, values copied). -/
def copyEntries : List (List Byte × ToonValue) → List (List Byte × ToonValue)
  | [] => []
  | (k, v) :: rest => (k, toon_value_copy v) :: copyEntries rest

/-- Row-wise copy of a tabular array's cells. -/
def copyRows : List (List ToonValue) → List (List ToonValue)
  | [] => []
  | r :: rest => copyElems r :: copyRows rest

end

/-- First entry value for a key, scanning in order (the key-match loops of
toon_merge, toon_path_set and toon_path_delete). -/
def findVal : List (List Byte × ToonValue) → List Byte → Option ToonValue
  | [], _ => none
  | (k0, tv) :: te, k => if k0 = k then some tv else findVal te k

/-- Replace the value of the first entry with the given key. -/
def replaceFirst :
    List (List Byte × ToonValue) → List Byte → ToonValue → List (List Byte × ToonValue)
  | [], _, _ => []
  | (k0, tv) :: te, k, newv =>
    if k0 = k then (k0, newv) :: te else (k0, tv) :: replaceFirst te k newv

mutual

/-- Source-entry loop of toon_merge (toon_operations.c:208-244): the source
entries are processed in order, each through mergeOne. -/
def mergeEntries :
    List (List Byte × ToonValue) → List (List Byte × ToonValue) → List (List Byte × ToonValue)
  | te, [] => te
  | te, (k, sv) :: rest => mergeEntries (mergeOne te k sv) rest

/-- One source entry: the first same-keyed target entry is recursively
merged when both values are Objects (first arm, matching the C type test),
otherwise replaced by a deep copy of the source value; an absent key
appends a deep copy with a copied key. -/
def mergeOne : List (List Byte × ToonValue) → List Byte → ToonValue → List (List Byte × ToonValue)
  | te, k, .object se2 =>
    (match findVal te k with
     | none => te ++ [(k, toon_value_copy (.object se2))]
     | some (.object te2) => replaceFirst te k (.object (mergeEntries te2 se2))
     | some _ => replaceFirst te k (toon_value_copy (.object se2)))
  | te, k, sv =>
    (match findVal te k with
     | none => te ++ [(k, toon_value_copy sv)]
     | some _ => replaceFirst te k (toon_value_copy sv))

end

/-- Recursive object merge (toon_merge): fails unless both arguments are
Objects; `some t` is the merged target (the C code mutates the target in
place and returns 0). -/
def toon_merge : ToonValue → ToonValue → Option ToonValue
  | .object te, .object se => some (.object (mergeEntries te se))
  | _, _ => none

/-!
Path engine (toon_path.c).  Paths parse into segment strings exactly as in
the C code: a name segment holds the property name, an index segment keeps
its brackets (`[`, content, `]`).  Navigation returns an alias into the
tree; the model returns the sub-value.  toon_path_set and toon_path_delete
mutate a parent node in place and return 0 or -1; the model returns `none`
for -1 (the C leaves the tree untouched on every failure path) and
`some parent2` for 0, where `parent2` is the updated node the C code
mutated — for a single-segment path that node is the root itself, so the
result is then the whole updated document.  (The 64-segment capacity of the
C segment buffer is not bounds-checked in C; paths beyond it are undefined
behavior and are not modeled.)
-/

/-- Segment scan of path_parse (toon_path.c:31-67): `.name` contributes the
name (up to `.`/`[`, 255 bytes), `[inner]` contributes `[inner]` (inner up
to `]`, 255 bytes); empty segments are skipped; any other character stops
the scan.  The fuel is the path length (each step consumes the `.` or `[`).
-/
def pathSegsLoop : Nat → List Byte → List (List Byte) → List (List Byte)
  | 0, _, acc => acc
  | fuel + 1, s, acc =>
    match s with
    | 46 :: r =>
      let name := (r.takeWhile fun c => !(c == 46 || c == 91)).take 255
      pathSegsLoop fuel (r.drop name.length) (if name = [] then acc else acc ++ [name])
    | 91 :: r =>
      let inner := (r.takeWhile fun c => !(c == 93)).take 255
      let r2 := r.drop inner.length
      let r3 := if r2.head? = some 93 then r2.tail else r2
      pathSegsLoop fuel r3 (if inner = [] then acc else acc ++ [91 :: inner ++ [93]])
    | _ => acc

/-- Path parser (path_parse): requires a leading `$`, then scans segments. -/
def path_parse (s : List Byte) : Option (List (List Byte)) :=
  match s with
  | 36 :: r => some (pathSegsLoop (r.length + 1) r [])
  | _ => none

/-- Negative-index normalization (`if (index < 0) index = length + index`). -/
def normIdx (n : Nat) (i : Int) : Int := if i < 0 then (n : Int) + i else i

/-- Recursive navigation (path_navigate): an index segment (first byte `[`)
requires an Array or TabularArray — `[*]` yields not-found, a negative
index counts from the end, out-of-range yields not-found, and an in-range
TabularArray row also yields not-found (`return NULL for now`); a name
segment requires an Object and takes the first matching entry. -/
def path_navigate : ToonValue → List (List Byte) → Option ToonValue
  | v, [] => some v
  | v, seg :: rest =>
    if seg.head? = some 91 then
      match v with
      | .array es =>
        if seg = strB "[*]" then none
        else
          let i2 := normIdx es.length (atoiB (seg.drop 1))
          if i2 < 0 ∨ (es.length : Int) ≤ i2 then none
          else
            match es.get? i2.toNat with
            | some e => path_navigate e rest
            | none => none
      | .tabular _ rs =>
        if seg = strB "[*]" then none
        else
          let i2 := normIdx rs.length (atoiB (seg.drop 1))
          if i2 < 0 ∨ (rs.length : Int) ≤ i2 then none else none
      | _ => none
    else
      match v with
      | .object en =>
        match findVal en seg with
        | some e => path_navigate e rest
        | none => none
      | _ => none

/-- Public path lookup (toon_path_get). -/
def toon_path_get (root : ToonValue) (ps : List Byte) : Option ToonValue :=
  if ps = strB "$" then some root
  else
    match path_parse ps with
    | none => none
    | some segs => path_navigate root segs

/-- The parent-search loop shared by toon_path_set and toon_path_delete
(`for (i = 0; i < num_segments - 1; i++) parent = path_navigate(parent,
path, i)`): note that path_navigate(parent, path, i) walks from segment i
all the way to the END of the path, so iteration i applies the whole
remaining suffix, not the single segment i.  The counter is the number of
iterations left (num_segments - 1). -/
def parentChainGo (segs : List (List Byte)) : ToonValue → Nat → Nat → Option ToonValue
  | parent, 0, _ => some parent
  | parent, rem + 1, i =>
    match path_navigate parent (segs.drop i) with
    | none => none
    | some q => parentChainGo segs q rem (i + 1)

/-- Parent node reached by the set/delete loop. -/
def parentChain (root : ToonValue) (segs : List (List Byte)) : Option ToonValue :=
  parentChainGo segs root (segs.length - 1) 0

/-- Replace the first same-keyed entry's value, or append a new entry with
a copied key (the object branch of toon_path_set). -/
def objSet :
    List (List Byte × ToonValue) → List Byte → ToonValue → List (List Byte × ToonValue)
  | [], k, v => [(k, v)]
  | (k0, v0) :: en, k, v => if k0 = k then (k0, v) :: en else (k0, v0) :: objSet en k v

/-- Public path set (toon_path_set, toon_path.c:163-245): `$` and parse
failures fail; then the parent-search loop runs; a final index segment
requires the parent to be an Array with the (negative-normalized) index in
bounds and replaces that slot; a final name segment requires an Object and
replaces the first matching entry's value or appends a new entry. -/
def toon_path_set (root : ToonValue) (ps : List Byte) (v : ToonValue) : Option ToonValue :=
  if ps = strB "$" then none
  else
    match path_parse ps with
    | none => none
    | some [] => none
    | some (s0 :: ss) =>
      match parentChain root (s0 :: ss) with
      | none => none
      | some parent =>
        let last := (s0 :: ss).getLastD []
        if last.head? = some 91 then
          match parent with
          | .array es =>
            let i2 := normIdx es.length (atoiB last.tail)
            if i2 < 0 ∨ (es.length : Int) ≤ i2 then none
            else some (.array (es.set i2.toNat v))
          | _ => none
        else
          match parent with
          | .object en => some (.object (objSet en last v))
          | _ => none

/-- Whether an object has an entry with the given key. -/
def hasKey : List (List Byte × ToonValue) → List Byte → Bool
  | [], _ => false
  | (k0, _) :: en, k => k0 = k || hasKey en k

/-- Remove the first same-keyed entry, shifting the rest down. -/
def objDelete : List (List Byte × ToonValue) → List Byte → List (List Byte × ToonValue)
  | [], _ => []
  | (k0, v0) :: en, k => if k0 = k then en else (k0, v0) :: objDelete en k

/-- Public path delete (toon_path_delete, toon_path.c:248-326): `$` and
parse failures fail; then the parent-search loop runs; a final index
segment requires an Array parent with the (negative-normalized) index in
bounds and removes that element, shifting the rest down; a final name
segment removes the first matching Object entry, failing when absent. -/
def toon_path_delete (root : ToonValue) (ps : List Byte) : Option ToonValue :=
  if ps = strB "$" then none
  else
    match path_parse ps with
    | none => none
    | some [] => none
    | some (s0 :: ss) =>
      match parentChain root (s0 :: ss) with
      | none => none
      | some parent =>
        let last := (s0 :: ss).getLastD []
        if last.head? = some 91 then
          match parent with
          | .array es =>
            let i2 := normIdx es.length (atoiB last.tail)
            if i2 < 0 ∨ (es.length : Int) ≤ i2 then none
            else some (.array (es.eraseIdx i2.toNat))
          | _ => none
        else
          match parent with
          | .object en => if hasKey en last then some (.object (objDelete en last)) else none
          | _ => none

/-! Observation helpers used by the theorem statements. -/

/-- Whether a value is the TabularArray variant. -/
def isTabularArray : ToonValue → Bool
  | .tabular _ _ => true
  | _ => false

/-- Whether a value is the Object variant. -/
def isObjectVal : ToonValue → Bool
  | .object _ => true
  | _ => false

/-- Entry count of an Object (0 for other variants). -/
def objectLength : ToonValue → Nat
  | .object en => en.length
  | _ => 0

/-- Entries of an Object (empty for other variants). -/
def objEntriesOf : ToonValue → List (List Byte × ToonValue)
  | .object en => en
  | _ => []

/-- A top-level TOON object text with 257 `a: 0` entries. -/
def toonInput257 : List Byte := (List.replicate 257 (strB "a: 0\n")).flatten

/-- A JSON array text with 257 zero elements. -/
def jsonArr257 : List Byte := 91 :: (List.replicate 256 (strB "0,")).flatten ++ [48, 93]

/-- A JSON object text with 257 `"a":0` members. -/
def jsonObj257 : List Byte :=
  123 :: (List.replicate 256 (strB "\"a\":0,")).flatten ++ strB "\"a\":0\x7d"

set_option maxRecDepth 100000

/-!
Spec-side predicates, written from the words of the claims (not from the C
code) for comparison with the code-derived definitions above.
-/

/-- Modelled from the claim words (C8, spec section 4.3): the quoting
condition exactly as stated, reading "a control character" as a byte below
32. -/
def needsQuotingSpec (s : List Byte) : Prop :=
  s = [] ∨ s = strB "null" ∨ s = strB "true" ∨ s = strB "false" ∨
    (strtodParse s).2.2 = [] ∨
    isspaceB s.headI = true ∨ isspaceB (s.getLast!) = true ∨
    ∃ c ∈ s, c = 44 ∨ c = 58 ∨ c = 10 ∨ c = 13 ∨ c = 123 ∨ c = 125 ∨ c = 91 ∨ c = 93 ∨ c < 32

/-- The amended C8 condition: as needsQuotingSpec, but the control test is
the code's signed-char comparison, true for bytes below 32 or at least 128.
-/
def needsQuotingAmended (s : List Byte) : Prop :=
  s = [] ∨ s = strB "null" ∨ s = strB "true" ∨ s = strB "false" ∨
    (strtodParse s).2.2 = [] ∨
    isspaceB s.headI = true ∨ isspaceB (s.getLast!) = true ∨
    ∃ c ∈ s, c = 44 ∨ c = 58 ∨ c = 10 ∨ c = 13 ∨ c = 123 ∨ c = 125 ∨ c = 91 ∨ c = 93 ∨
      c < 32 ∨ 128 ≤ c

/-- Modelled from the claim words (C3): promotion condition exactly as
stated — two or more elements, every element an object, every element with
the same entry count as the first. -/
def promotesSpec (es : List ToonValue) : Prop :=
  2 ≤ es.length ∧ (∀ e ∈ es, isObjectVal e = true) ∧
    ∀ e ∈ es, objectLength e = objectLength es.headI

/-- The amended C3 condition: as promotesSpec, plus the first element must
have at least one entry. -/
def promotesAmended (es : List ToonValue) : Prop :=
  2 ≤ es.length ∧ (∀ e ∈ es, isObjectVal e = true) ∧
    (∀ e ∈ es, objectLength e = objectLength es.headI) ∧ 0 < objectLength es.headI

/-- The round-trip input of the C1 theorem: the representable tree
`a ↦ (b ↦ 1)` whose strings are quoting-unambiguous. -/
def vRoundTrip : ToonValue := .object [(strB "a", .object [(strB "b", .number 1 0)])]

/-- The tree toon_decode actually rebuilds from the encoding of vRoundTrip. -/
def vRoundTripOut : ToonValue := .object [(strB "a", .string (strB "b")), ([], .number 1 0)]

/-!
Model validation: concrete evaluations of the embedded functions, checked
by kernel reduction.
-/

example : toon_encode (.string (strB "42")) 0 = strB "\"42\"" := by decide

example : toon_encode (.string (strB "hello")) 0 = strB "hello" := by decide

example : toon_encode (.number 3 0) 0 = strB "3" := by decide

example : toon_encode (.array [.number 1 0, .number 2 0]) 0 = strB "[2]: 1,2" := by decide

example :
    toon_encode (.object [(strB "a", .object [(strB "b", .number 1 0)])]) 0 =
      strB "a: b: 1\n\n" := by decide

example :
    toon_encode (.tabular [strB "id", strB "name"]
      [[.number 1 0, .string (strB "Alice")], [.number 2 0, .string (strB "Bob")]]) 0 =
      strB "[2,]\x7bid,name\x7d:\n1,Alice\n2,Bob\n" := by decide

example : toon_decode (strB "hello") = some (.string (strB "hello")) := rfl

example : toon_decode (strB "42") = some (.number 42 0) := rfl

example : toon_decode (strB "null") = some .null := rfl

example : toon_decode (strB "[2]: 1,2") = some (.array [.number 1 0, .number 2 0]) := rfl

example : toon_decode (strB "a: 1\nb: two\n") =
    some (.object [(strB "a", .number 1 0), (strB "b", .string (strB "two"))]) := rfl

example : toon_decode (strB "[2,]\x7bid,name\x7d:\n1,Alice\n2,Bob\n") =
    some (.object [(strB "[2,]\x7bid,name\x7d", .number 1 0)]) := rfl

example : toon_decode (strB "t: [2,]\x7bid,name\x7d:\n1,Alice\n2,Bob\n") =
    some (.object [(strB "t", .tabular [strB "id", strB "name"]
      [[.number 1 0, .string (strB "Alice")], [.number 2 0, .string (strB "Bob")]])]) := rfl

example : toon_decode (strB "a: b: 1\n\n") =
    some (.object [(strB "a", .string (strB "b")), ([], .number 1 0)]) := rfl

example : toon_decode (strB "\"bad \\q\"") = none := rfl

example :
    toon_to_json (.tabular [strB "id", strB "name"]
      [[.number 1 0, .string (strB "Alice")], [.number 2 0, .string (strB "Bob")]]) =
      strB "[\x7b\"id\":1,\"name\":\"Alice\"\x7d,\x7b\"id\":2,\"name\":\"Bob\"\x7d]" := rfl

example : json_to_toon (strB "\x7b\x7d") = some (.object []) := rfl

example : json_to_toon (strB "[\x7b\x7d,\x7b\x7d]") = some (.array [.object [], .object []]) := rfl

example :
    json_to_toon (strB "[\x7b\"a\":1\x7d,\x7b\"b\":2\x7d]") =
      some (.tabular [strB "a"] [[.number 1 0], [.number 2 0]]) := rfl

example : json_to_toon (strB "[1,2,") = none := rfl

example :
    toon_merge
      (.object [(strB "a", .object [(strB "y", .number 2 0)]), (strB "b", .number 3 0)])
      (.object [(strB "a", .object [(strB "x", .number 1 0)])]) =
    some (.object [(strB "a", .object [(strB "y", .number 2 0), (strB "x", .number 1 0)]),
      (strB "b", .number 3 0)]) := rfl

example : path_parse (strB "$.a[-1]") = some [strB "a", strB "[-1]"] := rfl

example :
    toon_path_get (.object [(strB "a", .array [.number 1 0, .number 2 0, .number 3 0])])
      (strB "$.a[-1]") = some (.number 3 0) := rfl

example :
    toon_path_get (.object [(strB "a", .array [.number 1 0, .number 2 0, .number 3 0])])
      (strB "$.a[5]") = none := rfl

example :
    toon_path_delete (.array [.number 10 0, .number 20 0, .number 30 0]) (strB "$[1]") =
      some (.array [.number 10 0, .number 30 0]) := rfl

example :
    toon_path_delete (.object [(strB "a", .array [.number 10 0, .number 20 0, .number 30 0])])
      (strB "$.a[1]") = none := rfl

example :
    toon_path_set (.object [(strB "a", .object [(strB "b", .number 1 0)])])
      (strB "$.a.b") (.number 5 0) = none := rfl

example :
    toon_path_set (.object [(strB "a", .number 1 0)]) (strB "$.b") (.number 5 0) =
      some (.object [(strB "a", .number 1 0), (strB "b", .number 5 0)]) := rfl

/-!  Claim theorems. -/

/-- C1: the mandatory round-trip property fails on the code.  For the
representable tree `{"a":{"b":1}}` (no quoting-ambiguous strings), the
encoder emits `a: b: 1\n\n`, and re-decoding that text yields
`{"a":"b","":1}` — the nested object collapses to the unquoted string `b`
plus a stray empty-keyed entry — which is observationally different from
the input (their JSON renderings differ). -/
theorem C1_round_trip_fails_eval :
    toon_decode (toon_encode vRoundTrip 0) = some vRoundTripOut ∧
      toon_to_json vRoundTripOut ≠ toon_to_json vRoundTrip :=
  ⟨rfl, by decide⟩

/-- C2: decoding the exact text `[2,]{id,name}:\n1,Alice\n2,Bob\n` does NOT
yield a TabularArray: the top-level lookahead of toon_decode treats the `:`
(preceded by `}`, and only `]` is excluded) as object syntax, so the text
parses as the one-entry Object `{"[2,]{id,name}": 1}`.  The same text nested
under a key does parse to the claimed TabularArray, whose toon_to_json is
exactly the JSON text the claim expects — confirming the top-level dispatch
as the slip. -/
theorem C2_tabular_decode_eval :
    toon_decode (strB "[2,]\x7bid,name\x7d:\n1,Alice\n2,Bob\n") =
        some (.object [(strB "[2,]\x7bid,name\x7d", .number 1 0)]) ∧
      isTabularArray (.object [(strB "[2,]\x7bid,name\x7d", .number 1 0)]) = false ∧
      toon_decode (strB "t: [2,]\x7bid,name\x7d:\n1,Alice\n2,Bob\n") =
        some (.object [(strB "t", .tabular [strB "id", strB "name"]
          [[.number 1 0, .string (strB "Alice")], [.number 2 0, .string (strB "Bob")]])]) ∧
      toon_to_json (.tabular [strB "id", strB "name"]
          [[.number 1 0, .string (strB "Alice")], [.number 2 0, .string (strB "Bob")]]) =
        strB "[\x7b\"id\":1,\"name\":\"Alice\"\x7d,\x7b\"id\":2,\"name\":\"Bob\"\x7d]" :=
  ⟨rfl, rfl, rfl, rfl⟩

/-- C6: deleting an in-bounds array index works only when the index is the
single path segment (the parent is then the root): deleting index 1 of the
root array `[10,20,30]` yields `[10,30]` as the claim's example states.
But for the nested path `$.a[1]` on `{"a":[10,20,30]}` the parent-search
loop of toon_path_delete re-applies the whole remaining path (its
path_navigate call walks to the end), lands on the number 20 itself, and
the delete fails with -1 instead of removing the element. -/
theorem C6_delete_eval :
    toon_path_delete (.array [.number 10 0, .number 20 0, .number 30 0]) (strB "$[1]") =
        some (.array [.number 10 0, .number 30 0]) ∧
      toon_path_delete
        (.object [(strB "a", .array [.number 10 0, .number 20 0, .number 30 0])])
        (strB "$.a[1]") = none :=
  ⟨rfl, rfl⟩

/-- C7: toon_path_set behaves as claimed only for single-segment paths:
`$` is rejected, an out-of-bounds final index fails, an in-bounds root
index slot is replaced, a root object key is replaced or appended.  But for
the two-segment path `$.a.b` on `{"a":{"b":1}}` — which the claim says
replaces b's value — the parent-search loop re-applies the whole remaining
path, lands on the number 1, and the set fails with -1. -/
theorem C7_set_eval :
    toon_path_set (.object [(strB "a", .object [(strB "b", .number 1 0)])]) (strB "$.a.b")
        (.number 5 0) = none ∧
      toon_path_set (.object [(strB "a", .number 1 0)]) (strB "$") (.number 5 0) = none ∧
      toon_path_set (.array [.number 1 0]) (strB "$[5]") (.number 9 0) = none ∧
      toon_path_set (.array [.number 1 0, .number 2 0]) (strB "$[0]") (.number 9 0) =
        some (.array [.number 9 0, .number 2 0]) ∧
      toon_path_set (.object [(strB "a", .number 1 0)]) (strB "$.a") (.number 5 0) =
        some (.object [(strB "a", .number 5 0)]) ∧
      toon_path_set (.object [(strB "a", .number 1 0)]) (strB "$.b") (.number 5 0) =
        some (.object [(strB "a", .number 1 0), (strB "b", .number 5 0)]) :=
  ⟨rfl, rfl, rfl, rfl, rfl, rfl⟩

/-- The code's quoting test agrees with the amended condition (the spec's
condition with the control test widened to the signed-char comparison). -/
theorem needs_quoting_iff (s : List Byte) : needs_quoting s = true ↔ needsQuotingAmended s := by
  unfold needs_quoting needsQuotingAmended
  split_ifs with h1 h2 h3 h4
  · exact iff_of_true rfl (Or.inl h1)
  · refine iff_of_true rfl ?_
    rcases h2 with h | h | h
    · exact Or.inr (Or.inl h)
    · exact Or.inr (Or.inr (Or.inl h))
    · exact Or.inr (Or.inr (Or.inr (Or.inl h)))
  · exact iff_of_true rfl (Or.inr (Or.inr (Or.inr (Or.inr (Or.inl h3)))))
  · refine iff_of_true rfl ?_
    rcases h4 with h | h
    · exact Or.inr (Or.inr (Or.inr (Or.inr (Or.inr (Or.inl h)))))
    · exact Or.inr (Or.inr (Or.inr (Or.inr (Or.inr (Or.inr (Or.inl h))))))
  · constructor
    · intro hany
      rw [List.any_eq_true] at hany
      obtain ⟨c, hc, hp⟩ := hany
      rw [decide_eq_true_eq] at hp
      exact Or.inr (Or.inr (Or.inr (Or.inr (Or.inr (Or.inr (Or.inr ⟨c, hc, hp⟩))))))
    · intro hdisj
      rcases hdisj with h | h | h | h | h | h | h | h
      · exact absurd h h1
      · exact absurd (Or.inl h) h2
      · exact absurd (Or.inr (Or.inl h)) h2
      · exact absurd (Or.inr (Or.inr h)) h2
      · exact absurd h h3
      · exact absurd (Or.inl h) h4
      · exact absurd (Or.inr h) h4
      · obtain ⟨c, hc, hp⟩ := h
        rw [List.any_eq_true]
        exact ⟨c, hc, by rw [decide_eq_true_eq]; exact hp⟩

/-- C8 counterexample: the byte 0xE9 (no listed special character, not a
control character in the claim's sense, not numeric, no whitespace, not a
keyword) is nevertheless emitted quoted, because the C code's signed-char
comparison classifies every byte at or above 128 as a control character. -/
theorem C8_highbyte_counterexample :
    needs_quoting [233] = true ∧ ¬ needsQuotingSpec [233] ∧
      toon_encode (.string [233]) 0 = [34, 233, 34] :=
  ⟨rfl, by unfold needsQuotingSpec; decide, rfl⟩

/-- C8 amended: a String is emitted quoted exactly when needs_quoting
holds, and needs_quoting holds exactly under the claim's conditions with
the control test read as the code's signed-char comparison (byte below 32
or at least 128); the claim's concrete examples hold: "42" is emitted
quoted, "hello" bare. -/
theorem C8_string_quoting :
    (∀ s, needs_quoting s = true ↔ needsQuotingAmended s) ∧
      (∀ s, toon_encode (.string s) 0 = if needs_quoting s then escape_string s else s) ∧
      toon_encode (.string (strB "42")) 0 = strB "\"42\"" ∧
      toon_encode (.string (strB "hello")) 0 = strB "hello" :=
  ⟨needs_quoting_iff, fun _ => rfl, by decide, by decide⟩

/-- A key absent from every entry is not found. -/
theorem findVal_eq_none {te : List (List Byte × ToonValue)} {k : List Byte}
    (h : ∀ e ∈ te, e.1 ≠ k) : findVal te k = none := by
  induction te with
  | nil => rfl
  | cons e te ih =>
    obtain ⟨k0, tv⟩ := e
    rw [findVal, if_neg (h (k0, tv) (by simp))]
    exact ih fun e he => h e (List.mem_cons_of_mem _ he)

/-- Finding a key positioned after entries that all miss it. -/
theorem findVal_append {pre post : List (List Byte × ToonValue)} {k : List Byte} {tv : ToonValue}
    (h : ∀ e ∈ pre, e.1 ≠ k) : findVal (pre ++ (k, tv) :: post) k = some tv := by
  induction pre with
  | nil => simp [findVal]
  | cons e pre ih =>
    obtain ⟨k0, tv0⟩ := e
    rw [List.cons_append, findVal, if_neg (h (k0, tv0) (by simp))]
    exact ih fun e he => h e (List.mem_cons_of_mem _ he)

/-- Replacing at a key positioned after entries that all miss it. -/
theorem replaceFirst_append {pre post : List (List Byte × ToonValue)} {k : List Byte}
    {tv newv : ToonValue} (h : ∀ e ∈ pre, e.1 ≠ k) :
    replaceFirst (pre ++ (k, tv) :: post) k newv = pre ++ (k, newv) :: post := by
  induction pre with
  | nil => simp [replaceFirst]
  | cons e pre ih =>
    obtain ⟨k0, tv0⟩ := e
    rw [List.cons_append, replaceFirst, if_neg (h (k0, tv0) (by simp)), List.cons_append,
      ih fun e he => h e (List.mem_cons_of_mem _ he)]

/-- C4: toon_merge fails exactly when either argument is not an Object;
source entries are processed in order through mergeOne; a source entry
whose key is absent from the target appends a deep copy; a present key
replaces the first matching entry with a deep copy of the source value,
except that two Objects merge recursively in place; and the claim's
concrete example merges as stated. -/
theorem C4_merge :
    (∀ t s, (toon_merge t s).isSome = (isObjectVal t && isObjectVal s)) ∧
      (∀ te k sv rest, toon_merge (.object te) (.object ((k, sv) :: rest)) =
        toon_merge (.object (mergeOne te k sv)) (.object rest)) ∧
      (∀ te k sv, (∀ e ∈ te, e.1 ≠ k) → mergeOne te k sv = te ++ [(k, toon_value_copy sv)]) ∧
      (∀ pre post k tv sv, (∀ e ∈ pre, e.1 ≠ k) →
        ¬(isObjectVal tv = true ∧ isObjectVal sv = true) →
        mergeOne (pre ++ (k, tv) :: post) k sv = pre ++ (k, toon_value_copy sv) :: post) ∧
      (∀ pre post k te2 se2, (∀ e ∈ pre, e.1 ≠ k) →
        mergeOne (pre ++ (k, .object te2) :: post) k (.object se2) =
          pre ++ (k, .object (mergeEntries te2 se2)) :: post) ∧
      toon_merge
          (.object [(strB "a", .object [(strB "y", .number 2 0)]), (strB "b", .number 3 0)])
          (.object [(strB "a", .object [(strB "x", .number 1 0)])]) =
        some (.object [(strB "a", .object [(strB "y", .number 2 0), (strB "x", .number 1 0)]),
          (strB "b", .number 3 0)]) := by
  refine ⟨?_, fun te k sv rest => rfl, ?_, ?_, ?_, rfl⟩
  · intro t s
    cases t <;> cases s <;> rfl
  · intro te k sv h
    cases sv
    all_goals simp only [mergeOne]
    all_goals rw [findVal_eq_none h]
  · intro pre post k tv sv hpre hno
    cases sv
    case object se2 =>
      rw [mergeOne, findVal_append hpre]
      cases tv
      case object te2 => exact absurd ⟨rfl, rfl⟩ hno
      all_goals exact replaceFirst_append hpre
    all_goals simp only [mergeOne]
    all_goals rw [findVal_append hpre]
    all_goals exact replaceFirst_append hpre
  · intro pre post k te2 se2 hpre
    rw [mergeOne, findVal_append hpre]
    exact replaceFirst_append hpre

/-- Witness for C4_merge at concrete inputs. -/
theorem C4_merge_witness :
    mergeOne [] (strB "k") ToonValue.null = [(strB "k", toon_value_copy ToonValue.null)] ∧
      mergeOne [(strB "x", ToonValue.null)] (strB "x") (ToonValue.boolean true) =
        [(strB "x", toon_value_copy (ToonValue.boolean true))] ∧
      mergeOne [(strB "x", ToonValue.object [])] (strB "x") (ToonValue.object []) =
        [(strB "x", ToonValue.object (mergeEntries [] []))] := by
  refine ⟨C4_merge.2.2.1 [] (strB "k") ToonValue.null (by simp), ?_, ?_⟩
  · exact C4_merge.2.2.2.1 [] [] (strB "x") ToonValue.null (ToonValue.boolean true)
      (by simp) (by simp [isObjectVal])
  · exact C4_merge.2.2.2.2.1 [] [] (strB "x") [] [] (by simp)

/-- C3 counterexample: `[{},{}]` satisfies the claim's promotion condition
(two elements, all objects, equal entry counts) yet json_to_toon leaves it a
simple Array — the code additionally requires a nonzero entry count. -/
theorem C3_empty_objects_counterexample :
    json_to_toon (strB "[\x7b\x7d,\x7b\x7d]") = some (.array [.object [], .object []]) ∧
      promotesSpec [ToonValue.object [], ToonValue.object []] ∧
      isTabularArray (.array [.object [], .object []]) = false :=
  ⟨rfl, by unfold promotesSpec; decide, rfl⟩

/-- C3 amended: parse_json_array promotes exactly under the amended
condition (two or more elements, all objects, entry count equal to the
first's, and the first nonempty); on promotion the headers are the first
object's keys and each row takes each object's entry values positionally —
as the concrete conversion of `[{"a":1},{"b":2}]` (different keys, equal
arity) shows; otherwise the elements stay a simple Array. -/
theorem C3_tabular_promotion :
    (∀ es, promotesAmended es →
        promote es = .tabular ((objEntriesOf es.headI).map Prod.fst) (es.map objVals)) ∧
      (∀ es, ¬ promotesAmended es → promote es = .array es) ∧
      json_to_toon (strB "[\x7b\"a\":1\x7d,\x7b\"b\":2\x7d]") =
        some (.tabular [strB "a"] [[.number 1 0], [.number 2 0]]) := by
  refine ⟨?_, ?_, rfl⟩
  · rintro es ⟨hlen, hobj, hcnt, hpos⟩
    cases es with
    | nil => simp at hlen
    | cons e tail =>
      cases tail with
      | nil => simp at hlen
      | cons e2 rest =>
        have he : isObjectVal e = true := hobj e (by simp)
        cases e <;> simp [isObjectVal] at he
        case object fe =>
        have hposf : 0 < fe.length := by simpa [objectLength, List.headI] using hpos
        have hall : (e2 :: rest).all (entriesLenEq fe.length) = true := by
          rw [List.all_eq_true]
          intro x hx
          have hxo := hobj x (List.mem_cons_of_mem _ hx)
          have hxc := hcnt x (List.mem_cons_of_mem _ hx)
          cases x <;> simp [isObjectVal] at hxo
          case object l =>
          simpa [entriesLenEq, objectLength, List.headI] using hxc
        simp only [promote]
        rw [if_pos ⟨hall, hposf⟩]
        rfl
  · intro es hnot
    cases es with
    | nil => rfl
    | cons e tail =>
      cases tail with
      | nil => cases e <;> rfl
      | cons e2 rest =>
        cases e
        case object fe =>
          simp only [promote]
          split_ifs with hC
          · exfalso
            apply hnot
            obtain ⟨hall, hpos⟩ := hC
            rw [List.all_eq_true] at hall
            refine ⟨by simp, ?_, ?_, by simpa [objectLength, List.headI]⟩
            · intro x hx
              rcases List.mem_cons.mp hx with rfl | hx2
              · rfl
              · have hx3 := hall x hx2
                cases x <;> simp [entriesLenEq, isObjectVal] at hx3 ⊢
            · intro x hx
              rcases List.mem_cons.mp hx with rfl | hx2
              · simp [List.headI]
              · have hx3 := hall x hx2
                cases x <;> simp [entriesLenEq] at hx3
                simpa [objectLength, List.headI] using hx3
          · rfl
        all_goals rfl

/-- Witness for C3_tabular_promotion at a concrete uniform object array. -/
theorem C3_tabular_promotion_witness :
    promotesAmended [ToonValue.object [(strB "a", ToonValue.number 1 0)],
        ToonValue.object [(strB "b", ToonValue.number 2 0)]] ∧
      promote [ToonValue.object [(strB "a", ToonValue.number 1 0)],
          ToonValue.object [(strB "b", ToonValue.number 2 0)]] =
        .tabular [strB "a"] [[ToonValue.number 1 0], [ToonValue.number 2 0]] := by
  have hp : promotesAmended [ToonValue.object [(strB "a", ToonValue.number 1 0)],
      ToonValue.object [(strB "b", ToonValue.number 2 0)]] := by
    unfold promotesAmended; decide
  exact ⟨hp, (C3_tabular_promotion.1 _ hp).trans rfl⟩

/-- C5: on an Array, a final index segment resolves through negative-index
normalization (negative i addresses element length + i) and any index
outside [0, length) after normalization is not-found; the claim's two
concrete lookups behave as stated. -/
theorem C5_path_index_bounds :
    (∀ (es : List ToonValue) (seg : List Byte) (i : Int),
        seg.head? = some 91 → seg ≠ strB "[*]" → atoiB (seg.drop 1) = i →
        path_navigate (.array es) [seg] =
          if 0 ≤ normIdx es.length i ∧ normIdx es.length i < (es.length : Int)
          then es.get? (normIdx es.length i).toNat else none) ∧
      toon_path_get (.object [(strB "a", .array [.number 1 0, .number 2 0, .number 3 0])])
          (strB "$.a[-1]") = some (.number 3 0) ∧
      toon_path_get (.object [(strB "a", .array [.number 1 0, .number 2 0, .number 3 0])])
          (strB "$.a[5]") = none := by
  refine ⟨?_, rfl, rfl⟩
  intro es seg i hh hw hi
  rw [path_navigate, if_pos hh]
  dsimp only
  rw [if_neg hw, hi]
  by_cases hb : 0 ≤ normIdx es.length i ∧ normIdx es.length i < (es.length : Int)
  · rw [if_pos hb, if_neg (by omega)]
    cases es.get? (normIdx es.length i).toNat <;> rfl
  · rw [if_neg hb, if_pos (by omega)]

/-- Witness for C5_path_index_bounds: `[-1]` on a three-element array. -/
theorem C5_path_index_bounds_witness :
    path_navigate (.array [.number 1 0, .number 2 0, .number 3 0]) [strB "[-1]"] =
      some (.number 3 0) := by
  have h := C5_path_index_bounds.1 [.number 1 0, .number 2 0, .number 3 0] (strB "[-1]") (-1)
    rfl (by decide) (by decide)
  rw [h]
  rfl

/-- Any nonempty path starting at a TabularArray resolves to not-found: an
index segment reaches the in-range-row `return NULL`, the out-of-range
return, or the wildcard return, and a name segment fails the Object test. -/
theorem navigate_tabular_cons (hs : List (List Byte)) (rs : List (List ToonValue))
    (seg : List Byte) (rest : List (List Byte)) :
    path_navigate (.tabular hs rs) (seg :: rest) = none := by
  rw [path_navigate]
  dsimp only
  split_ifs <;> rfl

/-- Navigation over a concatenated path is navigation in two stages. -/
theorem navigate_append (v : ToonValue) (ss ssB : List (List Byte)) :
    path_navigate v (ss ++ ssB) =
      (path_navigate v ss).bind fun w => path_navigate w ssB := by
  induction ss generalizing v with
  | nil => rfl
  | cons seg ss ih =>
    rw [List.cons_append]
    cases v
    case array es =>
      rw [path_navigate.eq_2]
      conv_rhs => rw [path_navigate.eq_2]
      by_cases hh : seg.head? = some 91
      · rw [if_pos hh, if_pos hh]
        by_cases hwild : seg = strB "[*]"
        · rw [if_pos hwild, if_pos hwild]
          rfl
        · rw [if_neg hwild, if_neg hwild]
          dsimp only
          by_cases hb : normIdx es.length (atoiB (List.drop 1 seg)) < 0 ∨
              (es.length : Int) ≤ normIdx es.length (atoiB (List.drop 1 seg))
          · rw [if_pos hb, if_pos hb]
            rfl
          · rw [if_neg hb, if_neg hb]
            cases es.get? (normIdx es.length (atoiB (List.drop 1 seg))).toNat with
            | none => rfl
            | some e => exact ih e
      · rw [if_neg hh, if_neg hh]
        rfl
    case tabular hs rs =>
      rw [path_navigate.eq_3]
      conv_rhs => rw [path_navigate.eq_3]
      dsimp only
      split_ifs <;> rfl
    case object en =>
      rw [path_navigate.eq_4]
      conv_rhs => rw [path_navigate.eq_4]
      by_cases hh : seg.head? = some 91
      · rw [if_pos hh, if_pos hh]
        rfl
      · rw [if_neg hh, if_neg hh]
        cases findVal en seg with
        | none => rfl
        | some e => exact ih e
    all_goals rw [path_navigate.eq_5 _ _ _ (fun _ h => ToonValue.noConfusion h)
      (fun _ _ h => ToonValue.noConfusion h) (fun _ h => ToonValue.noConfusion h)]
    all_goals conv_rhs => rw [path_navigate.eq_5 _ _ _ (fun _ h => ToonValue.noConfusion h)
      (fun _ _ h => ToonValue.noConfusion h) (fun _ h => ToonValue.noConfusion h)]
    all_goals split_ifs <;> rfl

/-- A path that reaches a TabularArray with segments still to apply
resolves to not-found. -/
theorem navigate_through_tabular {root : ToonValue} {pre suf : List (List Byte)}
    {hs : List (List Byte)} {rs : List (List ToonValue)}
    (hnav : path_navigate root pre = some (.tabular hs rs)) (hsuf : suf ≠ []) :
    path_navigate root (pre ++ suf) = none := by
  rw [navigate_append, hnav]
  cases suf with
  | nil => exact absurd rfl hsuf
  | cons s t => exact navigate_tabular_cons hs rs s t

/-- toon_path_get fails on every path through or into a TabularArray. -/
theorem get_through_tabular {root : ToonValue} {ps : List Byte} {pre suf : List (List Byte)}
    {hs : List (List Byte)} {rs : List (List ToonValue)}
    (hparse : path_parse ps = some (pre ++ suf)) (hsuf : suf ≠ [])
    (hnav : path_navigate root pre = some (.tabular hs rs)) :
    toon_path_get root ps = none := by
  by_cases hps : ps = strB "$"
  · exfalso
    have h2 : path_parse (strB "$") = some [] := rfl
    rw [hps, h2] at hparse
    have h3 : pre ++ suf = [] := (Option.some.inj hparse).symm
    exact hsuf (List.append_eq_nil.mp h3).2
  · rw [toon_path_get, if_neg hps, hparse]
    exact navigate_through_tabular hnav hsuf

/-- toon_path_set fails on every path through or into a TabularArray. -/
theorem set_through_tabular {root : ToonValue} {ps : List Byte} {pre suf : List (List Byte)}
    {hs : List (List Byte)} {rs : List (List ToonValue)} (v0 : ToonValue)
    (hparse : path_parse ps = some (pre ++ suf)) (hsuf : suf ≠ [])
    (hnav : path_navigate root pre = some (.tabular hs rs)) :
    toon_path_set root ps v0 = none := by
  by_cases hps : ps = strB "$"
  · rw [toon_path_set, if_pos hps]
  · rw [toon_path_set, if_neg hps, hparse]
    obtain ⟨s0, ss, heq⟩ : ∃ s0 ss, pre ++ suf = s0 :: ss := by
      cases hps2 : pre ++ suf with
      | nil => exact absurd (List.append_eq_nil.mp hps2).2 hsuf
      | cons a b => exact ⟨a, b, rfl⟩
    rw [heq]
    dsimp only
    cases ss with
    | nil =>
      obtain ⟨hpre0, hsuf0⟩ : pre = [] ∧ suf = [s0] := by
        cases pre with
        | nil => exact ⟨rfl, heq⟩
        | cons p pt =>
          rw [List.cons_append] at heq
          have h2 := (List.cons.injEq _ _ _ _).mp heq
          exact absurd (List.append_eq_nil.mp h2.2).2 hsuf
      have hroot : root = ToonValue.tabular hs rs := by
        rw [hpre0] at hnav
        exact Option.some.inj hnav
      rw [hroot]
      show (match parentChain (ToonValue.tabular hs rs) [s0] with
        | none => none
        | some parent =>
          if ([s0].getLastD []).head? = some 91 then
            match parent with
            | ToonValue.array es =>
              let i2 := normIdx es.length (atoiB ([s0].getLastD []).tail)
              if i2 < 0 ∨ (es.length : Int) ≤ i2 then none
              else some (.array (es.set i2.toNat v0))
            | _ => none
          else
            match parent with
            | ToonValue.object en => some (.object (objSet en ([s0].getLastD []) v0))
            | _ => none) = none
      dsimp only [parentChain, parentChainGo]
      split_ifs <;> rfl
    | cons s1 st =>
      have hfull : path_navigate root (s0 :: s1 :: st) = none := by
        rw [← heq]
        exact navigate_through_tabular hnav hsuf
      have hchain : parentChain root (s0 :: s1 :: st) = none := by
        show parentChainGo (s0 :: s1 :: st) root (st.length + 1) 0 = none
        rw [parentChainGo, List.drop_zero, hfull]
      rw [hchain]

/-- toon_path_delete fails on every path through or into a TabularArray. -/
theorem delete_through_tabular {root : ToonValue} {ps : List Byte} {pre suf : List (List Byte)}
    {hs : List (List Byte)} {rs : List (List ToonValue)}
    (hparse : path_parse ps = some (pre ++ suf)) (hsuf : suf ≠ [])
    (hnav : path_navigate root pre = some (.tabular hs rs)) :
    toon_path_delete root ps = none := by
  by_cases hps : ps = strB "$"
  · rw [toon_path_delete, if_pos hps]
  · rw [toon_path_delete, if_neg hps, hparse]
    obtain ⟨s0, ss, heq⟩ : ∃ s0 ss, pre ++ suf = s0 :: ss := by
      cases hps2 : pre ++ suf with
      | nil => exact absurd (List.append_eq_nil.mp hps2).2 hsuf
      | cons a b => exact ⟨a, b, rfl⟩
    rw [heq]
    dsimp only
    cases ss with
    | nil =>
      obtain ⟨hpre0, hsuf0⟩ : pre = [] ∧ suf = [s0] := by
        cases pre with
        | nil => exact ⟨rfl, heq⟩
        | cons p pt =>
          rw [List.cons_append] at heq
          have h2 := (List.cons.injEq _ _ _ _).mp heq
          exact absurd (List.append_eq_nil.mp h2.2).2 hsuf
      have hroot : root = ToonValue.tabular hs rs := by
        rw [hpre0] at hnav
        exact Option.some.inj hnav
      rw [hroot]
      show (match parentChain (ToonValue.tabular hs rs) [s0] with
        | none => none
        | some parent =>
          if ([s0].getLastD []).head? = some 91 then
            match parent with
            | ToonValue.array es =>
              let i2 := normIdx es.length (atoiB ([s0].getLastD []).tail)
              if i2 < 0 ∨ (es.length : Int) ≤ i2 then none
              else some (.array (es.eraseIdx i2.toNat))
            | _ => none
          else
            match parent with
            | ToonValue.object en =>
              if hasKey en ([s0].getLastD []) then some (.object (objDelete en ([s0].getLastD [])))
              else none
            | _ => none) = none
      dsimp only [parentChain, parentChainGo]
      split_ifs <;> rfl
    | cons s1 st =>
      have hfull : path_navigate root (s0 :: s1 :: st) = none := by
        rw [← heq]
        exact navigate_through_tabular hnav hsuf
      have hchain : parentChain root (s0 :: s1 :: st) = none := by
        show parentChainGo (s0 :: s1 :: st) root (st.length + 1) 0 = none
        rw [parentChainGo, List.drop_zero, hfull]
      rw [hchain]

/-- C10: path navigation never enters a TabularArray — a nonempty segment
list on a TabularArray (in-range row indices included) is not-found — so
toon_path_get never yields a row or cell of one, and toon_path_set and
toon_path_delete fail on every path that passes through or ends inside
one. -/
theorem C10_tabular_unaddressable :
    (∀ (hs : List (List Byte)) (rs : List (List ToonValue)) seg rest,
        path_navigate (.tabular hs rs) (seg :: rest) = none) ∧
      ∀ (root : ToonValue) (ps : List Byte) (pre suf : List (List Byte))
        (hs : List (List Byte)) (rs : List (List ToonValue)) (v0 : ToonValue),
        path_parse ps = some (pre ++ suf) → suf ≠ [] →
        path_navigate root pre = some (.tabular hs rs) →
        toon_path_get root ps = none ∧ toon_path_set root ps v0 = none ∧
          toon_path_delete root ps = none :=
  ⟨navigate_tabular_cons, fun _ _ _ _ _ _ v0 hparse hsuf hnav =>
    ⟨get_through_tabular hparse hsuf hnav, set_through_tabular v0 hparse hsuf hnav,
      delete_through_tabular hparse hsuf hnav⟩⟩

/-- Witness for C10_tabular_unaddressable: an in-range row index on a
one-row TabularArray, bare and below an object key. -/
theorem C10_tabular_unaddressable_witness :
    path_navigate (.tabular [strB "h"] [[ToonValue.number 1 0]]) [strB "[0]"] = none ∧
      (toon_path_get (.object [(strB "t", .tabular [strB "h"] [[ToonValue.number 1 0]])])
          (strB "$.t[0]") = none ∧
        toon_path_set (.object [(strB "t", .tabular [strB "h"] [[ToonValue.number 1 0]])])
          (strB "$.t[0]") ToonValue.null = none ∧
        toon_path_delete (.object [(strB "t", .tabular [strB "h"] [[ToonValue.number 1 0]])])
          (strB "$.t[0]") = none) :=
  ⟨C10_tabular_unaddressable.1 [strB "h"] [[ToonValue.number 1 0]] (strB "[0]") [],
    C10_tabular_unaddressable.2
      (.object [(strB "t", .tabular [strB "h"] [[ToonValue.number 1 0]])])
      (strB "$.t[0]") [strB "t"] [strB "[0]"] [strB "h"] [[ToonValue.number 1 0]]
      ToonValue.null rfl (by simp) rfl⟩

/-- The 257-entry TOON object text decodes with no error to an object
holding exactly 256 entries (kernel evaluation). -/
theorem toon_object_cap_truncates : (toon_decode toonInput257).map objectLength = some 256 := rfl

/-- The 257-element JSON array text is rejected (kernel evaluation). -/
theorem json_array_cap_errors : json_to_toon jsonArr257 = none := rfl

/-- The 257-member JSON object text is rejected (kernel evaluation). -/
theorem json_object_cap_errors : json_to_toon jsonObj257 = none := rfl

/-- C9 counterexample: a JSON array with 257 elements does not decode to a
value holding the first 256 — json_to_toon reports an error (the element
loop stops at the 256 cap and the parser then fails expecting `]`). -/
theorem C9_json_cap_counterexample : json_to_toon jsonArr257 = none := json_array_cap_errors

/-- C9 amended: only toon_decode's top-level object parser silently caps at
256 entries (257 entries decode to an object holding the first 256, no
error); json_to_toon's array and object parsers stop collecting at 256 but
then report a syntax error when more children follow, so oversized JSON
containers fail instead of truncating. -/
theorem C9_container_caps :
    (toon_decode toonInput257).map objectLength = some 256 ∧
      json_to_toon jsonArr257 = none ∧ json_to_toon jsonObj257 = none :=
  ⟨toon_object_cap_truncates, json_array_cap_errors, json_object_cap_errors⟩

end RedisToon
